import Mathlib

/-!
Verification of the ask-starknet-bot discord bridge.

Shallow embedding of the core logic of `packages/discord-bot/src`:
the response chunker (`toChunks`), answer extraction (`pickAnswer`),
the interaction dispatcher (`interactionCreate`), the ask command flow,
the mention-message flow, the command loader, and the startup/shutdown
lifecycle of `index.ts`.  Strings are modelled as `List Char`; the JS
`text.slice(i, i + size)` stepping loop becomes structural recursion on
the remaining suffix.
-/

namespace AskBot

/-- Embeds `toChunks` from `commands/ask.ts` / `events/messageCreate.ts`:
`for (let i = 0; i < text.length; i += size) chunks.push(text.slice(i, i + size))`.
Each iteration takes the next `size` characters and advances past them; a
zero `size` (for which the JS loop would not terminate on nonempty input)
is guarded to return no chunks. -/
def toChunks (size : Nat) (text : List Char) : List (List Char) :=
  if size = 0 then []
  else if text = [] then []
  else text.take size :: toChunks size (text.drop size)
termination_by text.length
decreasing_by
  simp only [List.length_drop]
  rename_i hsz hne
  have hpos : 0 < text.length := List.length_pos.mpr hne
  omega

theorem toChunks_nil (size : Nat) : toChunks size [] = [] := by
  rw [toChunks]
  simp

theorem toChunks_cons (size : Nat) (text : List Char) (hsz : size ≠ 0)
    (hne : text ≠ []) :
    toChunks size text = text.take size :: toChunks size (text.drop size) := by
  rw [toChunks]
  simp [hsz, hne]

theorem toChunks_flatten (size : Nat) (text : List Char) (hpos : 0 < size) :
    (toChunks size text).flatten = text := by
  induction text using toChunks.induct size with
  | case1 => omega
  | case2 => simp [toChunks_nil]
  | case3 t hsz hne ih =>
    rw [toChunks_cons size t hsz hne]
    simp only [List.flatten_cons]
    rw [ih]
    exact List.take_append_drop size t

theorem toChunks_length_le (size : Nat) (text : List Char) :
    ∀ c ∈ toChunks size text, c.length ≤ size := by
  induction text using toChunks.induct size with
  | case1 t hsz =>
    rw [toChunks]
    simp [hsz]
  | case2 => simp [toChunks_nil]
  | case3 t hsz hne ih =>
    rw [toChunks_cons size t hsz hne]
    intro c hc
    rcases List.mem_cons.mp hc with h | h
    · subst h
      simp
    · exact ih c h

theorem toChunks_count (size : Nat) (text : List Char) (hpos : 0 < size) :
    (toChunks size text).length = (text.length + size - 1) / size := by
  induction text using toChunks.induct size with
  | case1 => omega
  | case2 =>
    simp only [toChunks_nil, List.length_nil, Nat.zero_add]
    exact (Nat.div_eq_of_lt (by omega)).symm
  | case3 t hsz hne ih =>
    rw [toChunks_cons size t hsz hne]
    have htpos : 0 < t.length := List.length_pos.mpr hne
    rw [List.length_cons, ih]
    simp only [List.length_drop]
    rcases Nat.lt_or_ge t.length size with hcase | hcase
    · have h1 : t.length - size = 0 := by omega
      rw [h1]
      have h2 : (0 + size - 1) / size = 0 := Nat.div_eq_of_lt (by omega)
      have h3 : (t.length + size - 1) / size = 1 :=
        Nat.div_eq_of_lt_le (by omega) (by omega)
      omega
    · have h1 : t.length + size - 1 = (t.length - size + size - 1) + size := by
        omega
      rw [h1, Nat.add_div_right _ hpos]

/-- C1: for every text `T` and positive chunk size `S`, `toChunks S T` is a
sequence of contiguous substrings of `T` that concatenate back to `T`
exactly, every chunk has length at most `S`, the number of chunks is
`ceil (len T / S)` (written `(len T + S - 1) / S` in truncating natural
division), and the empty text yields zero chunks. -/
theorem toChunks_spec (size : Nat) (text : List Char) (hpos : 0 < size) :
    (toChunks size text).flatten = text ∧
    (∀ c ∈ toChunks size text, c.length ≤ size) ∧
    (toChunks size text).length = (text.length + size - 1) / size ∧
    toChunks size [] = [] :=
  ⟨toChunks_flatten size text hpos, toChunks_length_le size text,
    toChunks_count size text hpos, toChunks_nil size⟩

theorem toChunks_spec_witness :
    (0 < 3) ∧
    ((toChunks 3 ("chunk me".toList)).flatten = "chunk me".toList ∧
     (∀ c ∈ toChunks 3 ("chunk me".toList), c.length ≤ 3) ∧
     (toChunks 3 ("chunk me".toList)).length = (("chunk me".toList).length + 3 - 1) / 3 ∧
     toChunks 3 [] = []) :=
  ⟨by decide, toChunks_spec 3 ("chunk me".toList) (by decide)⟩

/-- Embeds `pickAnswer`'s input shape: the probed fields of a job result
payload (`result?.answer`, `result?.output`, `result?.message`,
`result?.data`), each `none` when the field is null/undefined. -/
structure JobResult where
  answer : Option String
  output : Option String
  message : Option String
  data : Option String
deriving DecidableEq

/-- Embeds `pickAnswer` from `commands/ask.ts` / `events/messageCreate.ts`:
`result?.answer ?? result?.output ?? result?.message ?? result?.data ??
'No answer received.'`.  The whole payload may itself be null
(`Option JobResult`); optional chaining then yields `none` for every
probe, and `??` falls through to the next alternative. -/
def pickAnswer (result : Option JobResult) : String :=
  ((((result.bind JobResult.answer).or
      (result.bind JobResult.output)).or
      (result.bind JobResult.message)).or
      (result.bind JobResult.data)).getD "No answer received."

/-- C2: `pickAnswer` returns the first populated field in the priority
order `answer`, `output`, `message`, `data`; an earlier populated field
wins regardless of the later ones, and a payload with none of the fields
populated resolves to the fixed fallback string. -/
theorem pickAnswer_spec (r : JobResult) :
    (∀ a, r.answer = some a → pickAnswer (some r) = a) ∧
    (r.answer = none → ∀ o, r.output = some o → pickAnswer (some r) = o) ∧
    (r.answer = none → r.output = none →
      ∀ m, r.message = some m → pickAnswer (some r) = m) ∧
    (r.answer = none → r.output = none → r.message = none →
      ∀ d, r.data = some d → pickAnswer (some r) = d) ∧
    (r.answer = none → r.output = none → r.message = none → r.data = none →
      pickAnswer (some r) = "No answer received.") := by
  refine ⟨?_, ?_, ?_, ?_, ?_⟩
  · intro a ha
    simp [pickAnswer, ha, Option.or]
  · intro ha o ho
    simp [pickAnswer, ha, ho, Option.or]
  · intro ha ho m hm
    simp [pickAnswer, ha, ho, hm, Option.or]
  · intro ha ho hm d hd
    simp [pickAnswer, ha, ho, hm, hd, Option.or]
  · intro ha ho hm hd
    simp [pickAnswer, ha, ho, hm, hd, Option.or]

theorem pickAnswer_spec_witness :
    pickAnswer (some ⟨some "first", some "second", none, some "last"⟩) = "first" :=
  (pickAnswer_spec ⟨some "first", some "second", none, some "last"⟩).1 "first" rfl

/-- The reply latch of a Discord interaction: the `replied` / `deferred`
flags consulted by the dispatcher and the command error handlers. -/
structure InteractionState where
  replied : Bool
  deferred : Bool
deriving DecidableEq

/-- Whether a handler's `execute` promise resolved or rejected. -/
inductive HandlerOutcome where
  | success
  | failure
deriving DecidableEq

/-- Observable behavior of a registered command handler: how running it
transforms the interaction latch and whether it throws. -/
structure CommandHandler where
  run : InteractionState → InteractionState × HandlerOutcome

/-- One observable action of the dispatcher in `deploy-commands.ts`'s
`interactionCreateEvent.execute`. -/
inductive DispatchAction where
  | invoke (name : String)
  | reply (content : String) (ephemeral : Bool)
  | followUp (content : String) (ephemeral : Bool)
deriving DecidableEq

/-- Embeds `interactionCreateEvent.execute`: look up
`client.commands.get(interaction.commandName)`; when absent, reply
`'Unknown command.'` (only if the latch is unset) and return without
invoking anything; otherwise `await command.execute(interaction)` inside
`try`, and on an exception send one error message — a follow-up when
`interaction.deferred || interaction.replied`, an initial ephemeral reply
otherwise.  Totality of this function embeds the `catch`: no handler
exception escapes the dispatcher. -/
def interactionCreate (commands : List (String × CommandHandler))
    (commandName : String) (st : InteractionState) :
    List DispatchAction × InteractionState :=
  match commands.lookup commandName with
  | none =>
    if !st.replied && !st.deferred then
      ([DispatchAction.reply "Unknown command." true], { st with replied := true })
    else
      ([], st)
  | some command =>
    let res := command.run st
    match res.2 with
    | HandlerOutcome.success => ([DispatchAction.invoke commandName], res.1)
    | HandlerOutcome.failure =>
      if res.1.deferred || res.1.replied then
        ([DispatchAction.invoke commandName,
          DispatchAction.followUp "There was an error executing this command." true],
          res.1)
      else
        ([DispatchAction.invoke commandName,
          DispatchAction.reply "There was an error executing this command." true],
          { res.1 with replied := true })

/-- C3: when the looked-up handler raises, the dispatcher sends exactly one
terminal error message after the invocation: a follow-up when the latch is
set (deferred or replied) at failure time and an initial reply otherwise;
in particular a handler that throws after deferring yields a follow-up and
never a second initial reply.  The dispatcher itself is a total function,
so the handler exception never propagates out of it. -/
theorem interactionCreate_handler_error
    (commands : List (String × CommandHandler)) (commandName : String)
    (st st2 : InteractionState) (command : CommandHandler)
    (hlook : commands.lookup commandName = some command)
    (hrun : command.run st = (st2, HandlerOutcome.failure)) :
    (interactionCreate commands commandName st).1 =
      DispatchAction.invoke commandName ::
        [if st2.deferred || st2.replied then
          DispatchAction.followUp "There was an error executing this command." true
         else
          DispatchAction.reply "There was an error executing this command." true] ∧
    ((st2.deferred || st2.replied) = true →
      (interactionCreate commands commandName st).1 =
        [DispatchAction.invoke commandName,
         DispatchAction.followUp "There was an error executing this command." true]) ∧
    (st2.deferred = true →
      ∀ c e, DispatchAction.reply c e ∉ (interactionCreate commands commandName st).1) := by
  have heq : interactionCreate commands commandName st =
      if st2.deferred || st2.replied then
        ([DispatchAction.invoke commandName,
          DispatchAction.followUp "There was an error executing this command." true],
          st2)
      else
        ([DispatchAction.invoke commandName,
          DispatchAction.reply "There was an error executing this command." true],
          { st2 with replied := true }) := by
    unfold interactionCreate
    rw [hlook]
    simp only [hrun]
  rw [heq]
  cases hd : st2.deferred <;> cases hr : st2.replied <;> simp

/-- A handler that defers the reply and then throws. -/
def deferThenFail : CommandHandler :=
  ⟨fun st => ({ st with deferred := true }, HandlerOutcome.failure)⟩

theorem interactionCreate_handler_error_witness :
    (interactionCreate [("ask", deferThenFail)] "ask" ⟨false, false⟩).1 =
      DispatchAction.invoke "ask" ::
        [if ((⟨false, true⟩ : InteractionState).deferred ||
             (⟨false, true⟩ : InteractionState).replied) then
          DispatchAction.followUp "There was an error executing this command." true
         else
          DispatchAction.reply "There was an error executing this command." true] ∧
    (((⟨false, true⟩ : InteractionState).deferred ||
      (⟨false, true⟩ : InteractionState).replied) = true →
      (interactionCreate [("ask", deferThenFail)] "ask" ⟨false, false⟩).1 =
        [DispatchAction.invoke "ask",
         DispatchAction.followUp "There was an error executing this command." true]) ∧
    ((⟨false, true⟩ : InteractionState).deferred = true →
      ∀ c e, DispatchAction.reply c e ∉
        (interactionCreate [("ask", deferThenFail)] "ask" ⟨false, false⟩).1) :=
  interactionCreate_handler_error [("ask", deferThenFail)] "ask"
    ⟨false, false⟩ ⟨false, true⟩ deferThenFail rfl rfl

/-- C5: dispatching an interaction whose command name is not in the
registry sends exactly one terminal "unknown command" reply (the fresh
interaction's latch is unset) and invokes no handler. -/
theorem interactionCreate_unknown
    (commands : List (String × CommandHandler)) (commandName : String)
    (st : InteractionState)
    (hlook : commands.lookup commandName = none)
    (hfresh : st.replied = false ∧ st.deferred = false) :
    interactionCreate commands commandName st =
      ([DispatchAction.reply "Unknown command." true],
        { st with replied := true }) ∧
    (∀ n, DispatchAction.invoke n ∉ (interactionCreate commands commandName st).1) := by
  unfold interactionCreate
  rw [hlook]
  obtain ⟨h1, h2⟩ := hfresh
  simp [h1, h2]

theorem interactionCreate_unknown_witness :
    interactionCreate [] "nope" ⟨false, false⟩ =
      ([DispatchAction.reply "Unknown command." true],
        { (⟨false, false⟩ : InteractionState) with replied := true }) ∧
    (∀ n, DispatchAction.invoke n ∉ (interactionCreate [] "nope" ⟨false, false⟩).1) :=
  interactionCreate_unknown [] "nope" ⟨false, false⟩ rfl ⟨rfl, rfl⟩

/-- How the awaited queue interaction of `askCommand.execute` resolves:
`completed` carries the payload returned by `waitForJobCompletion`;
`timedOut` is a rejection whose message matches the timeout test
(`err.message.includes('timed out') || err.name === 'TimeoutError'`);
`failed` is any other rejection of the job wait. -/
inductive AwaitOutcome where
  | completed (result : Option JobResult)
  | timedOut
  | failed
deriving DecidableEq

/-- One observable action of `askCommand.execute` in `commands/ask.ts`. -/
inductive AskAction where
  | deferReply
  | addJob (question : String)
  | editReplyEmbed (description : List Char)
  | followUp (chunk : List Char)
  | editReplyContent (content : String)
  | replyEphemeral (content : String)
deriving DecidableEq

/-- Embeds `askCommand.execute` from `commands/ask.ts`.  The queue-manager
check (`if (!queueManager) throw ...`) happens before `deferReply` and
before `addJob`; on the thrown error the catch sees an unset latch and a
message without `'timed out'`, so it sends an ephemeral initial reply.
With a queue manager attached, the handler defers, submits the job, awaits
it, and delivers via `pickAnswer`: an embed description of
`answer.slice(0, 4096)` edited into the deferred reply, plus — when the
answer exceeds 4096 — the remainder chunked by `toChunks` at the default
follow-up size 3800, sent as sequential follow-ups; the `for ... await`
order is modelled by the order of the action list.  Timeout and other
wait failures edit the deferred reply with the corresponding message. -/
def askExecute (queueManagerAttached : Bool) (question : String)
    (outcome : AwaitOutcome) (st : InteractionState) :
    List AskAction × InteractionState :=
  if queueManagerAttached = false then
    if st.deferred || st.replied then
      ([AskAction.editReplyContent "Error while processing the question."], st)
    else
      ([AskAction.replyEphemeral "Error while processing the question."],
        { st with replied := true })
  else
    let st1 := { st with deferred := true }
    match outcome with
    | AwaitOutcome.completed result =>
      let answer := (pickAnswer result).toList
      let descr := if answer.length ≤ 4096 then answer else answer.take 4096
      if answer.length ≤ 4096 then
        ([AskAction.deferReply, AskAction.addJob question,
          AskAction.editReplyEmbed descr], st1)
      else
        ([AskAction.deferReply, AskAction.addJob question,
          AskAction.editReplyEmbed descr] ++
          (toChunks 3800 (answer.drop 4096)).map AskAction.followUp, st1)
    | AwaitOutcome.timedOut =>
      ([AskAction.deferReply, AskAction.addJob question,
        AskAction.editReplyContent "Request timed out. Try again."], st1)
    | AwaitOutcome.failed =>
      ([AskAction.deferReply, AskAction.addJob question,
        AskAction.editReplyContent "Error while processing the question."], st1)

/-- C4: when the extracted answer exceeds 4096 characters, the ask flow
edits the primary structured reply to show exactly the first 4096
characters and then sends the rest (`answer.slice(4096)`) as an ordered
sequence of follow-ups chunked at the follow-up ceiling 3800 (the action
list order models the sequential `await` of each send); the follow-up
payloads concatenate back to the remainder.  When the answer is at most
4096 characters the primary reply alone is sent, with no follow-ups. -/
theorem askExecute_delivery (question : String) (result : Option JobResult)
    (st : InteractionState) :
    (4096 < (pickAnswer result).toList.length →
      (askExecute true question (AwaitOutcome.completed result) st).1 =
        [AskAction.deferReply, AskAction.addJob question,
         AskAction.editReplyEmbed ((pickAnswer result).toList.take 4096)] ++
          (toChunks 3800 ((pickAnswer result).toList.drop 4096)).map AskAction.followUp ∧
      ((toChunks 3800 ((pickAnswer result).toList.drop 4096)).flatten =
        (pickAnswer result).toList.drop 4096)) ∧
    ((pickAnswer result).toList.length ≤ 4096 →
      (askExecute true question (AwaitOutcome.completed result) st).1 =
        [AskAction.deferReply, AskAction.addJob question,
         AskAction.editReplyEmbed ((pickAnswer result).toList)] ∧
      ∀ c, AskAction.followUp c ∉
        (askExecute true question (AwaitOutcome.completed result) st).1) := by
  constructor
  · intro hlong
    have hnle : ¬ (pickAnswer result).toList.length ≤ 4096 := by omega
    constructor
    · simp only [askExecute, hnle]
      simp
    · exact toChunks_flatten 3800 ((pickAnswer result).toList.drop 4096) (by omega)
  · intro hshort
    constructor
    · simp only [askExecute, hshort]
      simp [hshort]
    · intro c hmem
      simp only [askExecute, hshort] at hmem
      simp [hshort] at hmem

/-- A concrete 5000-character completed payload, used to exercise the
long-answer branch of the delivery policy. -/
def longAnswerPayload : Option JobResult :=
  some ⟨some (String.mk (List.replicate 5000 'a')), none, none, none⟩

theorem longAnswerPayload_long :
    4096 < (pickAnswer longAnswerPayload).toList.length := by
  have h : (pickAnswer longAnswerPayload).toList = List.replicate 5000 'a' := rfl
  rw [h, List.length_replicate]
  omega

theorem askExecute_delivery_witness :
    (askExecute true "q" (AwaitOutcome.completed longAnswerPayload) ⟨false, false⟩).1 =
      [AskAction.deferReply, AskAction.addJob "q",
       AskAction.editReplyEmbed ((pickAnswer longAnswerPayload).toList.take 4096)] ++
        (toChunks 3800 ((pickAnswer longAnswerPayload).toList.drop 4096)).map
          AskAction.followUp ∧
    ((toChunks 3800 ((pickAnswer longAnswerPayload).toList.drop 4096)).flatten =
      (pickAnswer longAnswerPayload).toList.drop 4096) :=
  (askExecute_delivery "q" longAnswerPayload ⟨false, false⟩).1 longAnswerPayload_long

/-- C10: executing the ask command with no queue manager attached fails
before deferring and before submitting a job: the whole trace is a single
ephemeral initial error reply — no `deferReply`, no `addJob`, and no edit
of a deferred reply. -/
theorem askExecute_no_queue_manager (question : String)
    (outcome : AwaitOutcome) (st : InteractionState)
    (hfresh : st.replied = false ∧ st.deferred = false) :
    askExecute false question outcome st =
      ([AskAction.replyEphemeral "Error while processing the question."],
        { st with replied := true }) ∧
    AskAction.deferReply ∉ (askExecute false question outcome st).1 ∧
    (∀ q, AskAction.addJob q ∉ (askExecute false question outcome st).1) ∧
    (∀ c, AskAction.editReplyContent c ∉ (askExecute false question outcome st).1) := by
  obtain ⟨h1, h2⟩ := hfresh
  simp [askExecute, h1, h2]

theorem askExecute_no_queue_manager_witness :
    askExecute false "q" AwaitOutcome.failed ⟨false, false⟩ =
      ([AskAction.replyEphemeral "Error while processing the question."],
        { (⟨false, false⟩ : InteractionState) with replied := true }) ∧
    AskAction.deferReply ∉ (askExecute false "q" AwaitOutcome.failed ⟨false, false⟩).1 ∧
    (∀ q, AskAction.addJob q ∉ (askExecute false "q" AwaitOutcome.failed ⟨false, false⟩).1) ∧
    (∀ c, AskAction.editReplyContent c ∉
      (askExecute false "q" AwaitOutcome.failed ⟨false, false⟩).1) :=
  askExecute_no_queue_manager "q" AwaitOutcome.failed ⟨false, false⟩ ⟨rfl, rfl⟩

/-- How the queued job awaited by the mention-message flow resolves:
completion with a payload, a timeout rejection of `waitForJobCompletion`,
or any other exception inside the `try` body. -/
inductive MentionOutcome where
  | completed (result : Option JobResult)
  | timedOut
  | failed
deriving DecidableEq

/-- One observable action of `messageCreateEvent.execute` from
`events/messageCreate.ts` during the queue await. -/
inductive MentionAction where
  | sendTyping
  | startTyper
  | addJob (question : String)
  | replyEmbed (description : List Char)
  | channelSend (chunk : List Char)
  | clearTyper
  | replyError (content : String)
deriving DecidableEq

/-- Embeds the await section of `messageCreateEvent.execute`: after
`channel.sendTyping()` an interval timer re-sends typing
(`setInterval`, modelled by `startTyper`); the `try` body submits the job,
awaits it, replies with the embed (`answer.slice(0, 4096)`) and sends the
overflow chunked at 1900; the `finally` clause runs `clearInterval(typer)`
on every exit path, so `clearTyper` precedes the outer catch's error reply
when the await times out or throws. -/
def mentionAwaitSection (question : String) (outcome : MentionOutcome) :
    List MentionAction :=
  [MentionAction.sendTyping, MentionAction.startTyper] ++
  (match outcome with
   | MentionOutcome.completed result =>
     let answer := (pickAnswer result).toList
     [MentionAction.addJob question, MentionAction.replyEmbed (answer.take 4096)] ++
     (if 4096 < answer.length then
        (toChunks 1900 (answer.drop 4096)).map MentionAction.channelSend
      else []) ++
     [MentionAction.clearTyper]
   | MentionOutcome.timedOut =>
     [MentionAction.addJob question, MentionAction.clearTyper,
      MentionAction.replyError "Error processing your question. Try /ask."]
   | MentionOutcome.failed =>
     [MentionAction.addJob question, MentionAction.clearTyper,
      MentionAction.replyError "Error processing your question. Try /ask."])

/-- Whether the recurring typing timer is running after an action: the
`setInterval` call starts it, `clearInterval` stops it. -/
def typerStep (active : Bool) (a : MentionAction) : Bool :=
  match a with
  | MentionAction.startTyper => true
  | MentionAction.clearTyper => false
  | _ => active

/-- Whether the recurring typing timer is still running once the handler
has finished the given action sequence. -/
def typerActiveAfter (actions : List MentionAction) : Bool :=
  actions.foldl typerStep false

/-- Chunk sends never touch the timer. -/
theorem typerStep_foldl_channelSend (chunks : List (List Char)) (b : Bool) :
    (chunks.map MentionAction.channelSend).foldl typerStep b = b := by
  induction chunks generalizing b with
  | nil => rfl
  | cons c cs ih =>
    simp only [List.map_cons, List.foldl_cons, typerStep]
    exact ih b

def isClearTyper : MentionAction → Bool
  | MentionAction.clearTyper => true
  | _ => false

/-- Chunk sends contain no `clearInterval`. -/
theorem countP_clearTyper_channelSend (chunks : List (List Char)) :
    (chunks.map MentionAction.channelSend).countP isClearTyper = 0 := by
  induction chunks with
  | nil => rfl
  | cons c cs ih =>
    simp only [List.map_cons, List.countP_cons, isClearTyper, ih]
    simp

/-- The completed branch of the await section, over an abstract answer:
the timer ends cleared and `clearInterval` runs exactly once. -/
theorem mentionCompleted_aux (question : String) (answer : List Char) :
    typerActiveAfter ([MentionAction.sendTyping, MentionAction.startTyper] ++
      ([MentionAction.addJob question,
        MentionAction.replyEmbed (answer.take 4096)] ++
       (if 4096 < answer.length then
          (toChunks 1900 (answer.drop 4096)).map MentionAction.channelSend
        else []) ++
       [MentionAction.clearTyper])) = false ∧
    ([MentionAction.sendTyping, MentionAction.startTyper] ++
      ([MentionAction.addJob question,
        MentionAction.replyEmbed (answer.take 4096)] ++
       (if 4096 < answer.length then
          (toChunks 1900 (answer.drop 4096)).map MentionAction.channelSend
        else []) ++
       [MentionAction.clearTyper])).countP isClearTyper = 1 := by
  by_cases h : 4096 < answer.length
  · constructor
    · simp only [if_pos h, typerActiveAfter, List.foldl_append, List.foldl_cons,
        List.foldl_nil, typerStep, typerStep_foldl_channelSend]
    · simp only [if_pos h, List.countP_append, List.countP_cons, List.countP_nil,
        isClearTyper, countP_clearTyper_channelSend]
      simp
  · constructor
    · simp only [if_neg h, typerActiveAfter, List.foldl_append, List.foldl_cons,
        List.foldl_nil, typerStep]
    · simp only [if_neg h, List.countP_append, List.countP_cons, List.countP_nil,
        isClearTyper]
      simp

/-- C9: for every resolution of the awaited job in the mention-message
flow — success, timeout, or any other exception — the recurring typing
timer started before the await is cleared exactly once by the `finally`
clause, and it is not running when the handler finishes: no execution
leaks the recurring timer. -/
theorem mentionAwait_clears_typer (question : String) (outcome : MentionOutcome) :
    typerActiveAfter (mentionAwaitSection question outcome) = false ∧
    MentionAction.startTyper ∈ mentionAwaitSection question outcome ∧
    (mentionAwaitSection question outcome).countP isClearTyper = 1 := by
  cases outcome with
  | completed result =>
    have haux := mentionCompleted_aux question (pickAnswer result).toList
    exact ⟨haux.1, by simp [mentionAwaitSection], haux.2⟩
  | timedOut =>
    refine ⟨rfl, ?_, ?_⟩
    · simp [mentionAwaitSection]
    · simp [mentionAwaitSection, List.countP_cons, isClearTyper]
  | failed =>
    refine ⟨rfl, ?_, ?_⟩
    · simp [mentionAwaitSection]
    · simp [mentionAwaitSection, List.countP_cons, isClearTyper]

/-- Log severity of the structured logger calls in the loader and
lifecycle code. -/
inductive LogLevel where
  | info
  | warn
  | error
deriving DecidableEq

/-- One structured log record. -/
structure LogEntry where
  level : LogLevel
  text : String
deriving DecidableEq

/-- A discovered command module as `commandLoader.ts` sees it after
import: whether a candidate with `data` and an `execute` function was
resolved (`valid`), the resolved `candidate.data.name` (`none` models a
missing name), and the identity of the module's handler (`tag`). -/
structure CommandModule where
  name : Option String
  valid : Bool
  tag : Nat
deriving DecidableEq

/-- Embeds `client.commands.set(name, candidate)` on a discord.js
`Collection` (a `Map`): setting an existing key overwrites its binding in
place, otherwise the pair is appended. -/
def setCommand (registry : List (String × Nat)) (k : String) (tag : Nat) :
    List (String × Nat) :=
  if registry.any (fun p => p.1 == k) then
    registry.map (fun p => if p.1 == k then (k, tag) else p)
  else
    registry ++ [(k, tag)]

/-- Embeds the per-file loop of `loadCommands` in `commandLoader.ts`:
an invalid module logs `'Invalid command module'` (warn) and is skipped; a
valid module without a name logs `'Command missing name'` (warn) and is
skipped; otherwise `client.commands.set(name, candidate)` runs and
`'Loaded command'` is logged at info level.  No duplicate check exists:
a repeated name simply overwrites through `set`. -/
def loadCommands (modules : List CommandModule) :
    List (String × Nat) × List LogEntry :=
  modules.foldl
    (fun acc m =>
      if m.valid then
        match m.name with
        | some n =>
          (setCommand acc.1 n m.tag,
            acc.2 ++ [LogEntry.mk LogLevel.info "Loaded command"])
        | none =>
          (acc.1, acc.2 ++ [LogEntry.mk LogLevel.warn "Command missing name"])
      else
        (acc.1, acc.2 ++ [LogEntry.mk LogLevel.warn "Invalid command module"]))
    ([], [])

/-- C6 counterexample: loading two valid modules that both register the
name `"ask"` leaves only the second in the registry, but the log holds two
info entries and no warning — the duplicate overwrite is not logged as a
warning, contradicting the claim. -/
theorem loadCommands_dup_counterexample :
    ((loadCommands [CommandModule.mk (some "ask") true 1,
        CommandModule.mk (some "ask") true 2]).1.lookup "ask" = some 2) ∧
    (∀ e ∈ (loadCommands [CommandModule.mk (some "ask") true 1,
        CommandModule.mk (some "ask") true 2]).2, e.level ≠ LogLevel.warn) := by
  decide

/-- C6 (amended): when two discovered valid command modules register under
the same name, the second registration overwrites the first, so lookup
returns only the second handler; each registration is logged at info level
(`'Loaded command'`), and no warning is emitted for the duplicate. -/
theorem loadCommands_dup_overwrites (n : String) (t1 t2 : Nat) :
    ((loadCommands [CommandModule.mk (some n) true t1,
        CommandModule.mk (some n) true t2]).1.lookup n = some t2) ∧
    ((loadCommands [CommandModule.mk (some n) true t1,
        CommandModule.mk (some n) true t2]).2 =
      [LogEntry.mk LogLevel.info "Loaded command",
       LogEntry.mk LogLevel.info "Loaded command"]) := by
  constructor
  · simp [loadCommands, setCommand, List.lookup]
  · rfl

/-- Whether the client process has entered the shutdown sequence
(`client.isShuttingDown`). -/
structure ClientState where
  isShuttingDown : Bool
deriving DecidableEq

/-- One observable step of `shutdown` in `index.ts`. -/
inductive ShutdownAction where
  | stopWorkerCall
  | logWorkerStopped
  | logWorkerStopError
  | destroyCall
  | logClientDestroyed
  | logDestroyError
  | exitProcess (code : Nat)
deriving DecidableEq

/-- Embeds `shutdown(client, code)` from `index.ts`: return immediately
when `client.isShuttingDown` is already set, otherwise set the flag, try
`stopWorker()` (an exception is caught and logged, and does not stop the
sequence), then try `client.destroy()` (likewise fault-isolated), then
`process.exit(code)`.  `stopWorkerFails` / `destroyFails` say whether the
respective awaited call rejects. -/
def shutdown (stopWorkerFails destroyFails : Bool) (code : Nat)
    (st : ClientState) : ClientState × List ShutdownAction :=
  if st.isShuttingDown then
    (st, [])
  else
    (ClientState.mk true,
      ([ShutdownAction.stopWorkerCall] ++
        (if stopWorkerFails then [ShutdownAction.logWorkerStopError]
         else [ShutdownAction.logWorkerStopped])) ++
      ([ShutdownAction.destroyCall] ++
        (if destroyFails then [ShutdownAction.logDestroyError]
         else [ShutdownAction.logClientDestroyed])) ++
      [ShutdownAction.exitProcess code])

/-- What invokes `shutdown`: `process.once('SIGINT'/'SIGTERM', ...)` calls
it with code 0, the `uncaughtException` guard calls it with code 1. -/
inductive ShutdownTrigger where
  | sigint
  | sigterm
  | uncaughtFault
deriving DecidableEq

/-- The exit code `index.ts` passes to `shutdown` for each trigger. -/
def triggerCode : ShutdownTrigger → Nat
  | ShutdownTrigger.sigint => 0
  | ShutdownTrigger.sigterm => 0
  | ShutdownTrigger.uncaughtFault => 1

/-- C7: from a state not yet shutting down, one shutdown invocation
attempts to stop the worker and — even when stopping the worker fails —
still attempts to destroy the transport, then exits with the trigger's
code (0 for SIGINT/SIGTERM, 1 for an unrecoverable fault); any later
invocation, with any failure behavior, finds the `isShuttingDown` flag set
and performs no step at all. -/
theorem shutdown_spec (stopWorkerFails destroyFails : Bool)
    (trig : ShutdownTrigger) (st : ClientState)
    (hfirst : st.isShuttingDown = false) :
    (ShutdownAction.stopWorkerCall ∈
      (shutdown stopWorkerFails destroyFails (triggerCode trig) st).2) ∧
    (ShutdownAction.destroyCall ∈
      (shutdown stopWorkerFails destroyFails (triggerCode trig) st).2) ∧
    (ShutdownAction.exitProcess (triggerCode trig) ∈
      (shutdown stopWorkerFails destroyFails (triggerCode trig) st).2) ∧
    ((trig = ShutdownTrigger.sigint ∨ trig = ShutdownTrigger.sigterm) →
      triggerCode trig = 0) ∧
    (trig = ShutdownTrigger.uncaughtFault → triggerCode trig = 1) ∧
    (∀ swf2 df2 code2,
      shutdown swf2 df2 code2
          (shutdown stopWorkerFails destroyFails (triggerCode trig) st).1 =
        ((shutdown stopWorkerFails destroyFails (triggerCode trig) st).1, [])) := by
  cases st
  subst hfirst
  refine ⟨?_, ?_, ?_, ?_, ?_, ?_⟩
  · cases stopWorkerFails <;> cases destroyFails <;> simp [shutdown]
  · cases stopWorkerFails <;> cases destroyFails <;> simp [shutdown]
  · cases stopWorkerFails <;> cases destroyFails <;> simp [shutdown]
  · rintro (h | h) <;> subst h <;> rfl
  · intro h
    subst h
    rfl
  · intro swf2 df2 code2
    simp [shutdown]

theorem shutdown_spec_witness :
    (ShutdownAction.stopWorkerCall ∈
      (shutdown true false (triggerCode ShutdownTrigger.sigint)
        (ClientState.mk false)).2) ∧
    (ShutdownAction.destroyCall ∈
      (shutdown true false (triggerCode ShutdownTrigger.sigint)
        (ClientState.mk false)).2) ∧
    (ShutdownAction.exitProcess (triggerCode ShutdownTrigger.sigint) ∈
      (shutdown true false (triggerCode ShutdownTrigger.sigint)
        (ClientState.mk false)).2) ∧
    ((ShutdownTrigger.sigint = ShutdownTrigger.sigint ∨
      ShutdownTrigger.sigint = ShutdownTrigger.sigterm) →
      triggerCode ShutdownTrigger.sigint = 0) ∧
    (ShutdownTrigger.sigint = ShutdownTrigger.uncaughtFault →
      triggerCode ShutdownTrigger.sigint = 1) ∧
    (∀ swf2 df2 code2,
      shutdown swf2 df2 code2
          (shutdown true false (triggerCode ShutdownTrigger.sigint)
            (ClientState.mk false)).1 =
        ((shutdown true false (triggerCode ShutdownTrigger.sigint)
          (ClientState.mk false)).1, [])) :=
  shutdown_spec true false ShutdownTrigger.sigint (ClientState.mk false) rfl

/-- One awaited phase of `main()` in `index.ts`. -/
inductive StartupStep where
  | startQueueWorker
  | loadCommandsStep
  | loadEventsStep
  | login
deriving DecidableEq

/-- Embeds the order of the awaited phases in the body of `main()`
(`index.ts`, identically in the unnamed variant of the entry point):
the queue manager is created and `startWorker` awaited first, then
`loadCommands(client)`, then `loadEvents(client)`, and finally
`client.login(token)`.  Each of the first three phases sits in its own
`try`/`catch`, so a failure is logged and the later phases still run in
the same order. -/
def mainStartupTrace : List StartupStep :=
  [StartupStep.startQueueWorker] ++ [StartupStep.loadCommandsStep] ++
  [StartupStep.loadEventsStep] ++ [StartupStep.login]

/-- C8 counterexample: in `main()` the handler registry is populated
after the queue worker is started, not before — the claim's order
"registry, then worker" does not hold in the code. -/
theorem mainStartup_order_counterexample :
    ¬ (mainStartupTrace.indexOf StartupStep.loadCommandsStep <
       mainStartupTrace.indexOf StartupStep.startQueueWorker) := by
  decide

/-- C8 (amended): startup performs its phases in the order: start the
queue worker, then populate the handler registry (commands, then events),
then connect the transport (login); the transport therefore connects only
after the handlers exist and the worker has been started, so no
interaction can be dispatched before either, but the worker starts before
the registry is populated, not after. -/
theorem mainStartup_order :
    mainStartupTrace =
      [StartupStep.startQueueWorker, StartupStep.loadCommandsStep,
       StartupStep.loadEventsStep, StartupStep.login] ∧
    mainStartupTrace.indexOf StartupStep.startQueueWorker <
      mainStartupTrace.indexOf StartupStep.loadCommandsStep ∧
    mainStartupTrace.indexOf StartupStep.loadCommandsStep <
      mainStartupTrace.indexOf StartupStep.login ∧
    mainStartupTrace.indexOf StartupStep.startQueueWorker <
      mainStartupTrace.indexOf StartupStep.login := by
  decide
